import Mathlib

/-!
Verification of the LogXML2Chunks module (LogXML2Chunks/LogXML2Chunks.py).

Python strings are modelled as `List Char` internally, with `String`
wrappers at the API surface.  Machine behaviour (regex searches, `str`
methods, `dict` insertion order, MD5) is embedded directly from the
source; analysis-only definitions are marked as such in their doc
comments.
-/

set_option maxRecDepth 10000

/-- Python `str.strip` whitespace class (ASCII part, which is all that occurs here). -/
def pyIsSpace (c : Char) : Bool :=
  c == ' ' || c == '\t' || c == '\n' || c == '\r' || c == '\x0b' || c == '\x0c'

/-- Python `str.strip()` on a list of characters. -/
def pyStrip (s : List Char) : List Char :=
  ((s.dropWhile pyIsSpace).reverse.dropWhile pyIsSpace).reverse

/-- Python `str.lower()` (ASCII behaviour). -/
def lowerL (s : List Char) : List Char := s.map Char.toLower

/-- Python `str.upper()` (ASCII behaviour). -/
def upperL (s : List Char) : List Char := s.map Char.toUpper

/-- Does `s` start with the pattern `pat`? (Python `str.startswith`.) -/
def startsWithL : List Char → List Char → Bool
  | [], _ => true
  | _ :: _, [] => false
  | p :: ps, c :: cs => p == c && startsWithL ps cs

/-- Does `s` end with the pattern `pat`? (Python `str.endswith`.) -/
def endsWithL (pat s : List Char) : Bool := startsWithL pat.reverse s.reverse

/-- Python `str.split('\n')`. -/
def splitNl : List Char → List (List Char)
  | [] => [[]]
  | c :: rest =>
    match splitNl rest with
    | [] => [[]]
    | l :: ls => if c == '\n' then [] :: l :: ls else (c :: l) :: ls

/-- Auxiliary scanner for `findSub`, carrying the current index. -/
def findSubAux (sub : List Char) : List Char → Nat → Int
  | [], i => if startsWithL sub [] then (i : Int) else -1
  | c :: rest, i =>
    if startsWithL sub (c :: rest) then (i : Int) else findSubAux sub rest (i + 1)

/-- Python `str.find(sub)`: index of the first occurrence, or `-1`. -/
def findSub (sub s : List Char) : Int := findSubAux sub s 0

/-- Value of a digit string, as computed by Python `int`. -/
def digitsVal (ds : List Char) : Nat :=
  ds.foldl (fun n c => n * 10 + (c.toNat - 48)) 0

/-- Characters matched by the regex class `\w` (ASCII behaviour). -/
def isWordChar (c : Char) : Bool := c.isAlphanum || c == '_'

/-!
### The section-header regexes

`_extract_steps_from_documentation` (line 67) searches for
`(?:\*)?Steps(?:\s*/\s*\w+)?(?:\*)?:?` and
`_extract_requirements_from_documentation` (line 151) for
`(?:\*)?Requirements(?:\*)?:?`, both with `re.IGNORECASE`.
Both regexes are deterministic (no observable backtracking): an optional
`*`, the literal label case-insensitively, an optional
`whitespace* / whitespace* wordchar+` group (Steps only), an optional `*`,
an optional `:`.  `headerSearch` reproduces `re.search` (leftmost match)
and returns the text after the match, i.e. `doc_text[match.end():]`.
-/

/-- Case-insensitive literal match of a lowercase pattern; returns the remainder. -/
def matchCI : List Char → List Char → Option (List Char)
  | [], s => some s
  | _ :: _, [] => none
  | p :: ps, c :: cs => if c.toLower == p then matchCI ps cs else none

/-- The optional `\s*/\s*\w+` group of the Steps regex: consumed if fully present. -/
def chompSlashWord (s : List Char) : List Char :=
  match s.dropWhile pyIsSpace with
  | '/' :: u =>
    let v := u.dropWhile pyIsSpace
    if (v.takeWhile isWordChar).isEmpty then s else v.dropWhile isWordChar
  | _ => s

/-- The optional parts of the header regex after the label. -/
def headerTail (slashGroup : Bool) (r : List Char) : List Char :=
  let r1 := if slashGroup then chompSlashWord r else r
  let r2 := if startsWithL ['*'] r1 then r1.drop 1 else r1
  if startsWithL [':'] r2 then r2.drop 1 else r2

/-- Try the header regex at the current position; return the remainder after the match. -/
def headerMatch (pat : List Char) (slashGroup : Bool) (s : List Char) : Option (List Char) :=
  let s1 := if startsWithL ['*'] s then s.drop 1 else s
  match matchCI pat s1 with
  | none => none
  | some r => some (headerTail slashGroup r)

/-- `re.search` for the header regex: leftmost match, returning `text[match.end():]`. -/
def headerSearch (pat : List Char) (slashGroup : Bool) : List Char → Option (List Char)
  | [] => none
  | c :: rest =>
    match headerMatch pat slashGroup (c :: rest) with
    | some r => some r
    | none => headerSearch pat slashGroup rest

/-- Search for the Steps section header (line 70 of the source). -/
def searchStepsHeader (s : List Char) : Option (List Char) :=
  headerSearch ("steps".toList) true s

/-- Search for the Requirements section header (line 154 of the source). -/
def searchReqsHeader (s : List Char) : Option (List Char) :=
  headerSearch ("requirements".toList) false s

/-!
### Line classification inside a section
-/

/-- The early-termination test for a new emphasized section header (lines 85-88, 168-169). -/
def isSectionBreak (line : List Char) : Bool :=
  startsWithL ['*'] line && (endsWithL ['*'] line || line.contains ':')

/-- The regex `^\d+\.\s+(.+)$` for a numbered list item (lines 101-103, 183-185). -/
def numberedItem (line : List Char) : Option (List Char) :=
  let ds := line.takeWhile Char.isDigit
  if ds.isEmpty then none
  else
    match line.dropWhile Char.isDigit with
    | '.' :: rest =>
      if (rest.takeWhile pyIsSpace).isEmpty then none
      else
        let body := rest.dropWhile pyIsSpace
        if body.isEmpty then none else some (pyStrip body)
    | _ => none

/-- The regex `^[-*]\s+(.+)$` for a bulleted list item (lines 107-109, 189-191). -/
def bulletItem (line : List Char) : Option (List Char) :=
  match line with
  | [] => none
  | c :: rest =>
    if c == '-' || c == '*' then
      if (rest.takeWhile pyIsSpace).isEmpty then none
      else
        let body := rest.dropWhile pyIsSpace
        if body.isEmpty then none else some (pyStrip body)
    else none

/-- A recognized list item: numbered first, then bulleted (lines 101-109). -/
def itemText (line : List Char) : Option (List Char) :=
  match numberedItem line with
  | some t => some t
  | none => bulletItem line

/-- The tuple test `line.startswith(('1',...,'9','-','*'))` (lines 126, 203). -/
def startsListChar (line : List Char) : Bool :=
  match line with
  | [] => false
  | c :: _ => ['1', '2', '3', '4', '5', '6', '7', '8', '9', '-', '*'].contains c

/-- Python `step_text.split('/', 1)`. -/
def pySplitOnce (sep : Char) (s : List Char) : List (List Char) :=
  if s.contains sep then
    [s.takeWhile (fun c => c != sep), (s.dropWhile (fun c => c != sep)).drop 1]
  else [s]

/-- Splitting of an item into step name and expected behaviour (lines 111-119). -/
def stepSplit (t : List Char) : List Char × List Char :=
  if t.contains '/' then
    let parts := pySplitOnce '/' t
    (pyStrip (parts.headD []),
     if parts.length > 1 then pyStrip (parts.getD 1 []) else "pass".toList)
  else (t, "pass".toList)

/-- Python `dict` assignment `m[k] = v`: update in place if present, else append. -/
def dictInsert (m : List (List Char × List Char)) (k v : List Char) :
    List (List Char × List Char) :=
  match m with
  | [] => [(k, v)]
  | (k0, v0) :: rest => if k0 == k then (k0, v) :: rest else (k0, v0) :: dictInsert rest k v

/-- The per-line loop of `_extract_steps_from_documentation` (lines 80-127). -/
def stepsLoop : List (List Char) → List (List Char × List Char) → List (List Char × List Char)
  | [], steps => steps
  | l :: rest, steps =>
    let line := pyStrip l
    if isSectionBreak line then steps
    else if line.isEmpty || line == "...".toList then stepsLoop rest steps
    else
      let line2 := if startsWithL ("...".toList) line then pyStrip (line.drop 3) else line
      match itemText line2 with
      | some t =>
        let kv := stepSplit t
        stepsLoop rest (dictInsert steps kv.1 kv.2)
      | none =>
        if !steps.isEmpty && !startsListChar line2 then steps
        else stepsLoop rest steps

/-- The per-line loop of `_extract_requirements_from_documentation` (lines 164-204). -/
def reqsLoop : List (List Char) → List (List Char) → List (List Char)
  | [], reqs => reqs
  | l :: rest, reqs =>
    let line := pyStrip l
    if isSectionBreak line then reqs
    else if line.isEmpty || line == "...".toList then reqsLoop rest reqs
    else
      let line2 := if startsWithL ("...".toList) line then pyStrip (line.drop 3) else line
      match itemText line2 with
      | some t => reqsLoop rest (reqs ++ [t])
      | none =>
        if !line2.isEmpty then reqsLoop rest (reqs ++ [line2])
        else if !reqs.isEmpty && !startsListChar line2 then reqs
        else reqsLoop rest reqs

/-- `_extract_steps_from_documentation` (lines 43-129), core on character lists. -/
def extract_stepsL (doc : List Char) : List (List Char × List Char) :=
  if doc.isEmpty then []
  else
    match searchStepsHeader doc with
    | none => []
    | some after => stepsLoop (splitNl after) []

/-- `_extract_steps_from_documentation` on `String`s. -/
def extract_steps (doc : String) : List (String × String) :=
  (extract_stepsL doc.toList).map (fun p => (p.1.asString, p.2.asString))

/-- `_extract_requirements_from_documentation` (lines 131-206), core on character lists. -/
def extract_requirementsL (doc : List Char) : List (List Char) :=
  if doc.isEmpty then []
  else
    match searchReqsHeader doc with
    | none => []
    | some after => reqsLoop (splitNl after) []

/-- `_extract_requirements_from_documentation` on `String`s. -/
def extract_requirements (doc : String) : List String :=
  (extract_requirementsL doc.toList).map List.asString

/-!
### MD5 (`hashlib.md5(...).hexdigest()` at line 288)

A direct embedding of the MD5 algorithm over byte lists, with 32-bit words
represented as `Nat` reduced modulo `2 ^ 32`.
-/

/-- Reduce to a 32-bit word. -/
def w32 (n : Nat) : Nat := n % 4294967296

/-- 32-bit addition. -/
def addw (a b : Nat) : Nat := w32 (a + b)

/-- 32-bit left rotation of `x` by `s` (for `x < 2 ^ 32`, `s ≤ 32`). -/
def rotl (x s : Nat) : Nat := w32 (x * 2 ^ s) + x / 2 ^ (32 - s)

/-- MD5 round function F. -/
def md5F (b c d : Nat) : Nat := Nat.lor (Nat.land b c) (Nat.land (4294967295 - w32 b) d)

/-- MD5 round function G. -/
def md5G (b c d : Nat) : Nat := Nat.lor (Nat.land d b) (Nat.land (4294967295 - w32 d) c)

/-- MD5 round function H. -/
def md5H (b c d : Nat) : Nat := Nat.xor b (Nat.xor c d)

/-- MD5 round function I. -/
def md5I (b c d : Nat) : Nat := Nat.xor c (Nat.lor b (4294967295 - w32 d))

/-- The MD5 sine-derived constant table. -/
def md5K : List Nat :=
  [0xd76aa478, 0xe8c7b756, 0x242070db, 0xc1bdceee,
   0xf57c0faf, 0x4787c62a, 0xa8304613, 0xfd469501,
   0x698098d8, 0x8b44f7af, 0xffff5bb1, 0x895cd7be,
   0x6b901122, 0xfd987193, 0xa679438e, 0x49b40821,
   0xf61e2562, 0xc040b340, 0x265e5a51, 0xe9b6c7aa,
   0xd62f105d, 0x02441453, 0xd8a1e681, 0xe7d3fbc8,
   0x21e1cde6, 0xc33707d6, 0xf4d50d87, 0x455a14ed,
   0xa9e3e905, 0xfcefa3f8, 0x676f02d9, 0x8d2a4c8a,
   0xfffa3942, 0x8771f681, 0x6d9d6122, 0xfde5380c,
   0xa4beea44, 0x4bdecfa9, 0xf6bb4b60, 0xbebfbc70,
   0x289b7ec6, 0xeaa127fa, 0xd4ef3085, 0x04881d05,
   0xd9d4d039, 0xe6db99e5, 0x1fa27cf8, 0xc4ac5665,
   0xf4292244, 0x432aff97, 0xab9423a7, 0xfc93a039,
   0x655b59c3, 0x8f0ccc92, 0xffeff47d, 0x85845dd1,
   0x6fa87e4f, 0xfe2ce6e0, 0xa3014314, 0x4e0811a1,
   0xf7537e82, 0xbd3af235, 0x2ad7d2bb, 0xeb86d391]

/-- The MD5 per-round shift table. -/
def md5S : List Nat :=
  [7, 12, 17, 22, 7, 12, 17, 22, 7, 12, 17, 22, 7, 12, 17, 22,
   5, 9, 14, 20, 5, 9, 14, 20, 5, 9, 14, 20, 5, 9, 14, 20,
   4, 11, 16, 23, 4, 11, 16, 23, 4, 11, 16, 23, 4, 11, 16, 23,
   6, 10, 15, 21, 6, 10, 15, 21, 6, 10, 15, 21, 6, 10, 15, 21]

/-- One of the 64 MD5 steps on state `(a, b, c, d)`. -/
def md5Step (M : List Nat) (st : Nat × Nat × Nat × Nat) (i : Nat) : Nat × Nat × Nat × Nat :=
  match st with
  | (a, b, c, d) =>
    let fg : Nat × Nat :=
      if i < 16 then (md5F b c d, i)
      else if i < 32 then (md5G b c d, (5 * i + 1) % 16)
      else if i < 48 then (md5H b c d, (3 * i + 5) % 16)
      else (md5I b c d, (7 * i) % 16)
    let f := w32 (fg.1 + a + md5K.getD i 0 + M.getD fg.2 0)
    (d, addw b (rotl f (md5S.getD i 0)), b, c)

/-- A little-endian 32-bit word from four bytes. -/
def leWord (b0 b1 b2 b3 : Nat) : Nat := b0 + 256 * b1 + 65536 * b2 + 16777216 * b3

/-- Group a 64-byte block into 16 little-endian words. -/
def md5Words : List Nat → List Nat
  | b0 :: b1 :: b2 :: b3 :: rest => leWord b0 b1 b2 b3 :: md5Words rest
  | _ => []

/-- `k` little-endian bytes of `n`. -/
def leBytes : Nat → Nat → List Nat
  | 0, _ => []
  | k + 1, n => (n % 256) :: leBytes k (n / 256)

/-- MD5 padding: `0x80`, zeros to 56 mod 64, then the 64-bit little-endian bit length. -/
def md5Pad (msg : List Nat) : List Nat :=
  let len := msg.length
  let zeros := (120 - (len + 1) % 64) % 64
  msg ++ [128] ++ List.replicate zeros 0 ++ leBytes 8 ((8 * len) % 18446744073709551616)

/-- Split a byte list into 64-byte blocks. -/
def md5Blocks (l : List Nat) : List (List Nat) :=
  if h : l = [] then []
  else
    l.take 64 :: md5Blocks (l.drop 64)
termination_by l.length
decreasing_by
  simp only [List.length_drop]
  exact Nat.sub_lt (List.length_pos.mpr h) (by decide)

/-- Compress one 64-byte block into the running state. -/
def md5Compress (st : Nat × Nat × Nat × Nat) (block : List Nat) : Nat × Nat × Nat × Nat :=
  let M := md5Words block
  match st, (List.range 64).foldl (md5Step M) st with
  | (a0, b0, c0, d0), (a, b, c, d) => (addw a0 a, addw b0 b, addw c0 c, addw d0 d)

/-- The 16 digest bytes of the MD5 of a byte list. -/
def md5Bytes (msg : List Nat) : List Nat :=
  match (md5Blocks (md5Pad msg)).foldl md5Compress
      (0x67452301, 0xefcdab89, 0x98badcfe, 0x10325476) with
  | (a, b, c, d) => leBytes 4 a ++ leBytes 4 b ++ leBytes 4 c ++ leBytes 4 d

/-- One lowercase hex character. -/
def hexChar (n : Nat) : Char := if n < 10 then Char.ofNat (48 + n) else Char.ofNat (87 + n)

/-- Two hex characters of a byte. -/
def byteHex (b : Nat) : List Char := [hexChar (b / 16), hexChar (b % 16)]

/-- Python `hashlib.md5(data).hexdigest()`. -/
def md5Hex (msg : List Nat) : String := ((md5Bytes msg).map byteHex).flatten.asString

/-- UTF-8 encoding of one character (Python `str.encode('utf-8')`). -/
def utf8Char (c : Char) : List Nat :=
  let n := c.toNat
  if n < 128 then [n]
  else if n < 2048 then [192 + n / 64, 128 + n % 64]
  else if n < 65536 then [224 + n / 4096, 128 + n / 64 % 64, 128 + n % 64]
  else [240 + n / 262144, 128 + n / 4096 % 64, 128 + n / 64 % 64, 128 + n % 64]

/-- UTF-8 encoding of a character list. -/
def utf8 (s : List Char) : List Nat := (s.map utf8Char).flatten

/-!
### The XML document model

`xml.etree.ElementTree` elements: a tag, an attribute dictionary, optional
text, and an ordered list of children.
-/

mutual
/-- An XML element as seen through `xml.etree.ElementTree`. -/
inductive Xml where
  | elem (tag : String) (attrs : List (String × String)) (text : Option String)
      (children : XmlForest)
/-- The ordered children of an element (a bespoke list type, so that recursion
over the tree stays structural and kernel-reducible). -/
inductive XmlForest where
  | nil
  | cons (x : Xml) (rest : XmlForest)
end

/-- View a forest as a list. -/
def XmlForest.toList : XmlForest → List Xml
  | XmlForest.nil => []
  | XmlForest.cons x rest => x :: XmlForest.toList rest

/-- Build a forest from a list. -/
def XmlForest.ofList : List Xml → XmlForest
  | [] => XmlForest.nil
  | x :: rest => XmlForest.cons x (XmlForest.ofList rest)

/-- Element constructor taking the children as a list. -/
def xmlElem (tag : String) (attrs : List (String × String)) (text : Option String)
    (children : List Xml) : Xml :=
  Xml.elem tag attrs text (XmlForest.ofList children)

/-- The tag of an element. -/
def Xml.tagOf : Xml → String
  | Xml.elem t _ _ _ => t

/-- The attribute dictionary of an element. -/
def Xml.attrsOf : Xml → List (String × String)
  | Xml.elem _ a _ _ => a

/-- The `text` of an element (`None` modelled as `none`). -/
def Xml.textOf : Xml → Option String
  | Xml.elem _ _ x _ => x

/-- The child forest of an element. -/
def Xml.childrenF : Xml → XmlForest
  | Xml.elem _ _ _ cs => cs

/-- The child list of an element. -/
def Xml.childrenOf (x : Xml) : List Xml := (Xml.childrenF x).toList

/-- `element.get(key)`: first binding of `key` in the attribute dictionary. -/
def Xml.getAttr (x : Xml) (k : String) : Option String :=
  match (Xml.attrsOf x).filter (fun p => p.1 == k) with
  | [] => none
  | p :: _ => some p.2

/-- `element.get(key, default)`. -/
def Xml.getAttrD (x : Xml) (k d : String) : String :=
  match Xml.getAttr x k with
  | some v => v
  | none => d

mutual
/-- An element together with all its proper descendants, preorder. -/
def xmlSelfDescs : Xml → List Xml
  | Xml.elem t a x f => Xml.elem t a x f :: forestDescs f
/-- All elements of a forest and their descendants, in document order. -/
def forestDescs : XmlForest → List Xml
  | XmlForest.nil => []
  | XmlForest.cons x rest => xmlSelfDescs x ++ forestDescs rest
end

/-- All proper descendants of an element, in document order (the `.//` axis). -/
def Xml.descendants (x : Xml) : List Xml := forestDescs (Xml.childrenF x)

/-- `element.findall('.//tag')`: descendants with a given tag, document order. -/
def findallDesc (x : Xml) (t : String) : List Xml :=
  (Xml.descendants x).filter (fun c => Xml.tagOf c == t)

/-- `element.find('.//tag')`: first descendant with a given tag. -/
def findDesc (x : Xml) (t : String) : Option Xml := (findallDesc x t).head?

/-- `element.findall('tag')`: direct children with a given tag. -/
def findChildren (x : Xml) (t : String) : List Xml :=
  (Xml.childrenOf x).filter (fun c => Xml.tagOf c == t)

/-- `element.find('tag')`: first direct child with a given tag. -/
def findChild (x : Xml) (t : String) : Option Xml := (findChildren x t).head?

/-!
### The Chunk Reader (`get_data_from_chunk`, lines 208-326)

The result dictionary is modelled as a structure whose optional keys are
`Option` fields (`none` = key absent).  The `interface` key is always
present on success but its value may be Python `None`, hence
`Option (Option String)`.  Reading and parsing of the file are modelled by
a `ParseResult` argument (`ET.parse` outcome), and the
`potential_log.exists()` filesystem probe by a Boolean argument.  The
configured `filename_prefix_pattern` is modelled as an optional search
function returning the first capture of the first match, exactly what
`pattern.search(text).group(1)` yields.
-/

/-- Outcome of `ET.parse(xml_filepath)` at line 221 (and of any other raised fault). -/
inductive ParseResult where
  | parseFailure (msg : String)
  | otherFailure (msg : String)
  | ok (root : Xml)

/-- The dictionary returned by `get_data_from_chunk`. -/
structure ChunkRecord where
  xml_file : String
  success : Bool
  error : Option String
  index : Option Int
  test_name : Option String
  test_id : Option String
  status : Option String
  documentation : Option String
  steps : Option (List (String × String))
  requirements : Option (List String)
  source : Option String
  checksum : Option String
  interface : Option (Option String)
  log_file : Option String

/-- A `success=False` record: document path, success flag and error only. -/
def errorRecord (path msg : String) : ChunkRecord :=
  ⟨path, false, some msg, none, none, none, none, none, none, none, none, none, none, none⟩

/-- `Path(p).name`: the final path component. -/
def pathName (p : String) : String :=
  ((p.toList.reverse.takeWhile (fun c => c != '/')).reverse).asString

/-- Python `str.rfind(c)`: index of the last occurrence, or `-1`. -/
def pyRfind (c : Char) (s : List Char) : Int :=
  let ri := findSub [c] s.reverse
  if ri = -1 then -1 else ((s.length - 1 - ri.toNat : Nat) : Int)

/-- `Path(p).stem`: the name truncated at its last `.` when that dot is
neither the first nor the last character, else the whole name. -/
def pathStem (p : String) : String :=
  let name := (pathName p).toList
  let i := pyRfind '.' name
  if 0 < i ∧ i < ((name.length : Int) - 1) then (name.take i.toNat).asString
  else name.asString

/-- `str(Path(p).parent / (Path(p).stem + '_log.html'))` (lines 270-272). -/
def logPathOf (p : String) : String :=
  ((p.toList.take (p.toList.length - (pathName p).toList.length)).asString)
    ++ pathStem p ++ "_log.html"

/-- The regex `^(\d+)_` applied to the filename (line 265). -/
def leadingIdx (cs : List Char) : Option Nat :=
  let ds := cs.takeWhile Char.isDigit
  if ds.isEmpty then none
  else
    match cs.dropWhile Char.isDigit with
    | '_' :: _ => some (digitsVal ds)
    | _ => none

/-- Lines 279-284: lowercase the source and truncate at the first marker found,
probing `/tests/` before `/scripts/`; returns the normalized path together with
the final value of the Python variable `idx`, which these lines overwrite. -/
def normSourceAndIdx (source : List Char) : List Char × Int :=
  let s := lowerL source
  let i1 := findSub ("/tests/".toList) s
  if i1 != -1 then (s.drop (i1.toNat + 1), i1)
  else
    let i2 := findSub ("/scripts/".toList) s
    if i2 != -1 then (s.drop (i2.toNat + 1), i2) else (s, i2)

/-- The source-path normalization used for the checksum (lines 279-284). -/
def normalizeSource (source : String) : String :=
  (normSourceAndIdx source.toList).1.asString

/-- The checksum of line 286-288: `md5(f"{name}{doc}{normalized_source}")`. -/
def chunkChecksum (test_name test_doc source : String) : String :=
  md5Hex (utf8 (test_name ++ test_doc ++ normalizeSource source).toList)

/-!
### The Prefix Resolver (`_extract_filename_prefix`, lines 379-435)

The configured regex is modelled as a search function
`String → Option String` returning the first capture group of the first
match, i.e. the behaviour of `pattern.search(text)` plus `.group(1)`.
The Lean name drops the banned-suffix word of the Python method name.
-/

/-- `suite.findall('.//kw[@type="SETUP"]//msg')` (line 403): messages nested in
descendant SETUP keywords, document order. -/
def setupMsgs (x : Xml) : List Xml :=
  (((Xml.descendants x).filter
      (fun k => Xml.tagOf k == "kw" && Xml.getAttr k "type" == some "SETUP")).map
    (fun k => (Xml.descendants k).filter (fun m => Xml.tagOf m == "msg"))).flatten

/-- `test.findall('.//msg')` (line 429). -/
def msgsUnder (x : Xml) : List Xml :=
  (Xml.descendants x).filter (fun m => Xml.tagOf m == "msg")

/-- The truthiness test `if msg.text:` (lines 404, 423, 430). -/
def msgText (m : Xml) : Option String :=
  match Xml.textOf m with
  | some s => if s.isEmpty then none else some s
  | none => none

/-- One search loop over messages: first message whose text matches the pattern
yields the captured value, uppercased (lines 403-407 and the two twins). -/
def firstHit (pat : String → Option String) : List Xml → Option String
  | [] => none
  | m :: rest =>
    match msgText m with
    | some t =>
      match pat t with
      | some cap => some (upperL cap.toList).asString
      | none => firstHit pat rest
    | none => firstHit pat rest

/-- Python `suite_id.split('-')`. -/
def splitDash : List Char → List (List Char)
  | [] => [[]]
  | c :: rest =>
    match splitDash rest with
    | [] => [[]]
    | l :: ls => if c == '-' then [] :: l :: ls else (c :: l) :: ls

/-- Lines 413-416: ancestor ids `'-'.join(parts[:i])` for `i = len-1, ..., 1`. -/
def parentIdsOf (suite_id : List Char) : List (List Char) :=
  let parts := splitDash suite_id
  ((List.range' 1 (parts.length - 1)).reverse).map
    (fun i => List.intercalate ['-'] (parts.take i))

/-- `root.find(".//suite[@id='pid']")` (line 420). -/
def findSuiteById (r : Xml) (pid : String) : Option Xml :=
  ((Xml.descendants r).filter
    (fun s => Xml.tagOf s == "suite" && Xml.getAttr s "id" == some pid)).head?

/-- Lines 419-426: walk the ancestor ids, searching each found ancestor's
descendant SETUP messages. -/
def firstParentHit (pat : String → Option String) (r : Xml) :
    List (List Char) → Option String
  | [] => none
  | pid :: rest =>
    match findSuiteById r pid.asString with
    | some ps =>
      match firstHit pat (setupMsgs ps) with
      | some v => some v
      | none => firstParentHit pat r rest
    | none => firstParentHit pat r rest

/-- `_extract_filename_prefix(test, suite, root)` (lines 379-435). -/
def extract_filename_pfx (pat : Option (String → Option String)) (test suite : Xml)
    (root : Option Xml) : Option String :=
  match pat with
  | none => none
  | some p =>
    match firstHit p (setupMsgs suite) with
    | some v => some v
    | none =>
      let fromParents :=
        match root with
        | none => none
        | some r => firstParentHit p r (parentIdsOf (Xml.getAttrD suite "id" "").toList)
      match fromParents with
      | some v => some v
      | none => firstHit p (msgsUnder test)

/-- `get_data_from_chunk` (lines 208-326).  `cfgPat` is the instance's configured
pattern, `pr` the parse outcome for the file, `logExists` the result of the
`potential_log.exists()` probe. -/
def get_data_from_chunk (cfgPat : Option (String → Option String)) (xml_filepath : String)
    (pr : ParseResult) (logExists : Bool) : ChunkRecord :=
  match pr with
  | ParseResult.parseFailure m => errorRecord xml_filepath ("XML parsing error: " ++ m)
  | ParseResult.otherFailure m => errorRecord xml_filepath ("Error reading chunk: " ++ m)
  | ParseResult.ok root =>
    match findDesc root "suite" with
    | none => errorRecord xml_filepath "No suite element found in XML"
    | some suite =>
      match findChild suite "test" with
      | none => errorRecord xml_filepath "No test element found in XML"
      | some test =>
        let test_name := Xml.getAttrD test "name" ""
        let test_id := Xml.getAttrD test "id" ""
        let test_doc :=
          match findChild test "doc" with
          | some d =>
            match Xml.textOf d with
            | some s => if s.isEmpty then "" else s
            | none => ""
          | none => ""
        let test_source := Xml.getAttrD suite "source" ""
        let test_steps := extract_steps test_doc
        let test_requirements := extract_requirements test_doc
        let test_status :=
          match findChild test "status" with
          | some st => Xml.getAttrD st "status" "UNKNOWN"
          | none => "UNKNOWN"
        -- Line 266: `idx` is first bound to the filename-derived index ...
        let idxFromFilename : Int :=
          match leadingIdx (pathName xml_filepath).toList with
          | some n => (n : Int)
          | none => 0
        let log_filepath : Option String :=
          if logExists then some (logPathOf xml_filepath) else none
        -- ... lines 279-284 then REUSE the same variable `idx` for the marker
        -- offsets of the source normalization, so the record's 'index' entry
        -- (line 294) holds the final value of that loop, not the filename index.
        let normIdx := normSourceAndIdx test_source.toList
        let checksum := md5Hex (utf8 (test_name ++ test_doc ++ normIdx.1.asString).toList)
        let interface_pfx :=
          match cfgPat with
          | some _ => some (extract_filename_pfx cfgPat test suite (some root))
          | none => some none
        ⟨xml_filepath, true, none, some normIdx.2, some test_name, some test_id,
         some test_status, some test_doc, some test_steps, some test_requirements,
         some test_source, some checksum, interface_pfx, log_filepath⟩

/-!
### The Document Splitter (`split_to_chunks`, lines 437-592)

The standalone document built for one (suite, test) pair (lines 484-547) is
modelled by `BuiltChunk`, an element-for-element restructuring of the
`ET.Element` tree the code assembles (a `robot` root carrying the original
root attributes, one suite shell, a statistics section and an empty errors
element).  `new_tree.write` (line 552) and the `rebot` subprocess (lines
563-592) touch the outside world; their outcomes are supplied by oracles
indexed by the 1-based traversal index.  Only the subprocess call is inside
a `try`, so a write failure (or an `AttributeError` from a missing `name`
attribute at line 471 or missing `status` element at line 516) propagates
and aborts the whole loop; this is modelled with `Except`.
-/

/-- One pass/fail/skip attribute triple of a `stat` element. -/
structure StatTriple where
  pass : String
  fail : String
  skip : String
deriving DecidableEq

/-- The statistics section of the standalone document (lines 511-544). -/
structure ChunkStats where
  total : StatTriple
  tagStats : List (Option String × StatTriple)
  suiteName : Option String
  suiteId : Option String
  suiteTriple : StatTriple
deriving DecidableEq

/-- The standalone document and filename built for one (suite, test) pair. -/
structure BuiltChunk where
  idx : Nat
  filename : String
  rootAttrs : List (String × String)
  suiteAttrs : List (String × String)
  suiteChildren : List Xml
  stats : ChunkStats

/-- Lines 516-519: the counts derived from this test's status attribute
(`None` if the status element has no `status` attribute). -/
def statusCounts (stVal : Option String) : StatTriple :=
  ⟨if stVal == some "PASS" then "1" else "0",
   if stVal == some "FAIL" then "1" else "0",
   if stVal == some "SKIP" then "1" else "0"⟩

/-- Lines 511-544: the recomputed statistics of the standalone document. -/
def chunkStats (suite test : Xml) (stVal : Option String) : ChunkStats :=
  let t := statusCounts stVal
  ⟨t,
   (findChildren test "tag").map (fun tg => (Xml.textOf tg, t)),
   Xml.getAttr suite "name", Xml.getAttr suite "id", t⟩

/-- `test_name.replace(' ', '_').replace('/', '_').replace('\\', '_')` (line 471). -/
def safeName (s : String) : String :=
  (s.toList.map (fun c => if c == ' ' || c == '/' || c == '\\' then '_' else c)).asString

/-- Python `f"{x}"` on an optional attribute value (`None` prints as "None"). -/
def optStr : Option String → String
  | some s => s
  | none => "None"

/-- `suite.findall('kw[@type="SETUP"]')` (line 495). -/
def setupKws (s : Xml) : List Xml :=
  (findChildren s "kw").filter (fun k => Xml.getAttr k "type" == some "SETUP")

/-- `suite.findall('kw[@type="TEARDOWN"]')` (line 502). -/
def teardownKws (s : Xml) : List Xml :=
  (findChildren s "kw").filter (fun k => Xml.getAttr k "type" == some "TEARDOWN")

/-- Lines 463-552: processing of one (suite, test) pair up to the written
document.  `Except.error` models an uncaught exception. -/
def buildChunk (pat : Option (String → Option String)) (root suite test : Xml)
    (idx : Nat) : Except String BuiltChunk :=
  match Xml.getAttr test "name" with
  | none => Except.error "AttributeError: NoneType has no attribute replace"
  | some test_name =>
    let test_id := Xml.getAttr test "id"
    let pfx := extract_filename_pfx pat test suite (some root)
    let safe := safeName test_name
    let xml_filename :=
      match pfx with
      | some p => toString idx ++ "_" ++ p ++ "_" ++ safe ++ "_" ++ optStr test_id ++ ".xml"
      | none => toString idx ++ "_" ++ safe ++ "_" ++ optStr test_id ++ ".xml"
    match findChild test "status" with
    | none => Except.error "AttributeError: NoneType has no attribute get"
    | some st =>
      Except.ok
        ⟨idx, xml_filename, Xml.attrsOf root, Xml.attrsOf suite,
         findChildren suite "source" ++ setupKws suite ++ [test]
           ++ teardownKws suite ++ findChildren suite "doc",
         chunkStats suite test (Xml.getAttr st "status")⟩

/-- Outcome of `new_tree.write(xml_filepath, ...)` (line 552). -/
inductive WriteOutcome where
  | ok
  | failed (msg : String)

/-- Outcome of the `rebot` invocation (lines 563-592). -/
inductive RenderOutcome where
  | exit (code : Int)
  | binMissing
  | exc (msg : String)

/-- Debug line produced for one render outcome (lines 582-592). -/
def renderLog (r : RenderOutcome) : String :=
  match r with
  | RenderOutcome.exit code =>
    if code == 0 then "Generated log" else "Failed to generate report"
  | RenderOutcome.binMissing => "Error: rebot command not found."
  | RenderOutcome.exc m => "Error generating report: " ++ m

/-- Lines 455-458: all (suite, test) pairs in traversal order. -/
def testCases (root : Xml) : List (Xml × Xml) :=
  ((findallDesc root "suite").map
    (fun suite => (findChildren suite "test").map (fun t => (suite, t)))).flatten

/-- The extraction loop of `split_to_chunks` (lines 463-592): a write failure or
a build fault aborts the run; any render outcome is caught and only logged. -/
def splitLoop (pat : Option (String → Option String)) (root : Xml)
    (writeRes : Nat → WriteOutcome) (renderRes : Nat → RenderOutcome) :
    Nat → List (Xml × Xml) → List BuiltChunk → List String →
    Except String (List BuiltChunk) × List String
  | _, [], acc, log => (Except.ok acc.reverse, log.reverse)
  | idx, (suite, test) :: rest, acc, log =>
    match buildChunk pat root suite test idx with
    | Except.error e => (Except.error e, log.reverse)
    | Except.ok chunk =>
      match writeRes idx with
      | WriteOutcome.failed m => (Except.error m, log.reverse)
      | WriteOutcome.ok =>
        splitLoop pat root writeRes renderRes (idx + 1) rest (chunk :: acc)
          (renderLog (renderRes idx) :: log)

/-- `split_to_chunks` (lines 437-592): the produced standalone documents (or the
aborting fault) together with the render debug log. -/
def split_to_chunks (pat : Option (String → Option String)) (root : Xml)
    (writeRes : Nat → WriteOutcome) (renderRes : Nat → RenderOutcome) :
    Except String (List BuiltChunk) × List String :=
  splitLoop pat root writeRes renderRes 1 (testCases root) [] []

/-!
### Analysis-side definitions
-/

/-- Analysis definition (not in the source): the normalization that the spec
describes.  Modelled from the spec: lowercase, then truncate to everything from
(and including) whichever of the `tests/` or `scripts/` path segments occurs
FIRST IN THE STRING (not in a fixed probe order); the full lowercase path when
neither occurs. -/
def normalizeSourceSpec (source : String) : String :=
  let s := lowerL source.toList
  let i1 := findSub ("/tests/".toList) s
  let i2 := findSub ("/scripts/".toList) s
  (if i1 ≠ -1 ∧ (i2 = -1 ∨ i1 < i2) then s.drop (i1.toNat + 1)
   else if i2 ≠ -1 then s.drop (i2.toNat + 1)
   else s).asString

/-- Analysis definition: the item texts recognized by the Steps loop, collected
along the same traversal (the loop's control flow depends on the accumulated
dictionary only through its nonemptiness, tracked here by the Boolean). -/
def stepsItemScan : List (List Char) → Bool → List (List Char)
  | [], _ => []
  | l :: rest, has =>
    let line := pyStrip l
    if isSectionBreak line then []
    else if line.isEmpty || line == "...".toList then stepsItemScan rest has
    else
      let line2 := if startsWithL ("...".toList) line then pyStrip (line.drop 3) else line
      match itemText line2 with
      | some t => t :: stepsItemScan rest true
      | none =>
        if has && !startsListChar line2 then []
        else stepsItemScan rest has

/-- Analysis definition: the recognized item lines of the Steps section of a
documentation string, in source order. -/
def stepsItemsOf (doc : String) : List (List Char) :=
  if doc.toList.isEmpty then []
  else
    match searchStepsHeader doc.toList with
    | none => []
    | some after => stepsItemScan (splitNl after) false

/-- The property claimed of an aggregate triple: exactly one count is "1" and
the other two are "0". -/
def exactlyOneCount (t : StatTriple) : Prop :=
  (t.pass = "1" ∧ t.fail = "0" ∧ t.skip = "0") ∨
  (t.pass = "0" ∧ t.fail = "1" ∧ t.skip = "0") ∨
  (t.pass = "0" ∧ t.fail = "0" ∧ t.skip = "1")

instance (t : StatTriple) : Decidable (exactlyOneCount t) := by
  unfold exactlyOneCount; infer_instance

/-!
### Concrete example documents
-/

/-- A PASS test element with name and id. -/
def c1Test : Xml :=
  xmlElem "test" [("name", "Login Test"), ("id", "s1-t1")] none
    [xmlElem "status" [("status", "PASS")] none []]

/-- A suite whose source path contains a `/tests/` segment. -/
def c1Suite : Xml :=
  xmlElem "suite" [("name", "Login"), ("id", "s1"), ("source", "/repo/tests/login.robot")]
    none [c1Test]

/-- A parsed chunk document around `c1Suite`. -/
def c1Root : Xml := xmlElem "robot" [("generator", "Robot")] none [c1Suite]

/-- The same suite with a source path containing neither marker segment. -/
def c1SuiteB : Xml :=
  xmlElem "suite" [("name", "Login"), ("id", "s1"), ("source", "login.robot")] none [c1Test]

/-- A parsed chunk document around `c1SuiteB`. -/
def c1RootB : Xml := xmlElem "robot" [("generator", "Robot")] none [c1SuiteB]

/-!
### C1 — the 'index' field of a successfully read chunk
-/

/-- C1: the claim says the record's 'index' equals the integer parsed from the
leading `<digits>_` filename prefix (0 when absent) and does not depend on the
suite's source path.  The code contradicts its own comment ("Extract index from
filename"): the local variable holding the filename index is overwritten by the
source-normalization loop of lines 279-284, so 'index' is the offset of
`/tests/` (or `/scripts/`) in the lowercased source path, and `-1` when neither
occurs.  Here the file `chunks/3_Login_Test_s1-t1.xml` yields index 5 (not 3)
when the source is `/repo/tests/login.robot`, and index -1 (not 3, nor 0) for
the same filename when the source is `login.robot`. -/
theorem C1_index_bug :
    (get_data_from_chunk none "chunks/3_Login_Test_s1-t1.xml" (ParseResult.ok c1Root)
        false).success = true
  ∧ (get_data_from_chunk none "chunks/3_Login_Test_s1-t1.xml" (ParseResult.ok c1Root)
        false).index = some 5
  ∧ leadingIdx (pathName "chunks/3_Login_Test_s1-t1.xml").toList = some 3
  ∧ (get_data_from_chunk none "chunks/3_Login_Test_s1-t1.xml" (ParseResult.ok c1RootB)
        false).index = some (-1) := by
  refine ⟨?_, ?_, ?_, ?_⟩ <;> decide

/-!
### C2 — the checksum path normalization
-/

/-- C2 counterexample: the code probes `/tests/` before `/scripts/` and keeps
the first marker that the PROBE order finds, not the one occurring first in the
string: on `/a/scripts/b/tests/c.robot` it truncates at `/tests/` although
`/scripts/` occurs earlier. -/
theorem C2_counterexample :
    normalizeSource "/a/scripts/b/tests/c.robot" = "tests/c.robot"
  ∧ normalizeSourceSpec "/a/scripts/b/tests/c.robot" = "scripts/b/tests/c.robot"
  ∧ normalizeSource "/a/scripts/b/tests/c.robot"
      ≠ normalizeSourceSpec "/a/scripts/b/tests/c.robot" := by
  refine ⟨?_, ?_, ?_⟩ <;> decide

/-!
### C3 — the Requirements example
-/

/-- C3 counterexample: the claim (and the spec's example) says extraction stops
before the "Notes: n/a" line; it does not. -/
theorem C3_counterexample :
    extract_requirements "Requirements:\n- REQ-1\n- REQ-2\nNotes: n/a"
      ≠ ["REQ-1", "REQ-2"] := by decide

/-- C3 (amended): on `"Requirements:\n- REQ-1\n- REQ-2\nNotes: n/a"` the
extractor returns the THREE-element list `["REQ-1", "REQ-2", "Notes: n/a"]`:
the line "Notes: n/a" does not start with an emphasis marker, so it is accepted
by the plain-text fallback of lines 193-195 rather than terminating the scan. -/
theorem C3_requirements :
    extract_requirements "Requirements:\n- REQ-1\n- REQ-2\nNotes: n/a"
      = ["REQ-1", "REQ-2", "Notes: n/a"] := by decide

/-!
### Bridge lemmas between the Steps loop and the item scan
-/

/-- Inserting into the dictionary never yields the empty dictionary. -/
theorem dictInsert_ne_nil (m : List (List Char × List Char)) (k v : List Char) :
    dictInsert m k v ≠ [] := by
  cases m with
  | nil => simp [dictInsert]
  | cons p rest =>
    cases p with
    | mk k0 v0 =>
      simp only [dictInsert]
      split <;> simp

/-- The Steps loop is the item scan followed by dictionary insertion of the
split items. -/
theorem stepsLoop_eq_foldl :
    ∀ (lines : List (List Char)) (acc : List (List Char × List Char)),
      stepsLoop lines acc =
        List.foldl (fun m kv => dictInsert m kv.1 kv.2) acc
          ((stepsItemScan lines (!acc.isEmpty)).map stepSplit) := by
  intro lines
  induction lines with
  | nil => intro acc; simp [stepsLoop, stepsItemScan]
  | cons l rest ih =>
    intro acc
    simp only [stepsLoop, stepsItemScan]
    generalize pyStrip l = line
    generalize hl2 : (if startsWithL ("...".toList) line then pyStrip (line.drop 3)
        else line) = line2
    by_cases hb : isSectionBreak line = true
    · rw [if_pos hb, if_pos hb]; simp
    · rw [if_neg hb, if_neg hb]
      by_cases he : (line.isEmpty || line == "...".toList) = true
      · rw [if_pos he, if_pos he]; exact ih acc
      · rw [if_neg he, if_neg he]
        cases hit : itemText line2 with
        | some t =>
          simp only [List.map_cons, List.foldl_cons]
          rw [ih (dictInsert acc (stepSplit t).1 (stepSplit t).2)]
          have hne := dictInsert_ne_nil acc (stepSplit t).1 (stepSplit t).2
          have hie : (dictInsert acc (stepSplit t).1 (stepSplit t).2).isEmpty = false := by
            cases hd : dictInsert acc (stepSplit t).1 (stepSplit t).2 with
            | nil => exact absurd hd hne
            | cons a b => simp [List.isEmpty]
          rw [hie, Bool.not_false]
        | none =>
          by_cases hstop : (!acc.isEmpty && !startsListChar line2) = true
          · rw [if_pos hstop, if_pos hstop]; simp
          · rw [if_neg hstop, if_neg hstop]; exact ih acc

/-- `extract_stepsL` in terms of the recognized item lines. -/
theorem extract_stepsL_eq (doc : String) :
    extract_stepsL doc.toList =
      List.foldl (fun m kv => dictInsert m kv.1 kv.2) []
        ((stepsItemsOf doc).map stepSplit) := by
  unfold extract_stepsL stepsItemsOf
  by_cases h0 : doc.toList.isEmpty = true
  · rw [if_pos h0, if_pos h0]; simp
  · rw [if_neg h0, if_neg h0]
    cases hs : searchStepsHeader doc.toList with
    | none => simp
    | some after =>
      simpa using stepsLoop_eq_foldl (splitNl after) []

/-!
### C4 — splitting a recognized item on the first '/'
-/

/-- C4: every recognized Steps item is split on the FIRST `/` into a trimmed
step name and a trimmed expected behaviour, defaulting to the literal "pass"
when the item contains no `/`; the worked example of the claim holds, and every
recognized item line contributes through exactly this split. -/
theorem C4_step_item_split :
    extract_steps "*Steps*\n1. Open DB / verify connection\n2. Close DB"
      = [("Open DB", "verify connection"), ("Close DB", "pass")]
  ∧ (∀ t : List Char,
      stepSplit t =
        if t.contains '/' then
          (pyStrip (t.takeWhile (fun c => c != '/')),
           pyStrip ((t.dropWhile (fun c => c != '/')).drop 1))
        else (t, "pass".toList))
  ∧ (∀ doc : String,
      extract_stepsL doc.toList =
        List.foldl (fun m kv => dictInsert m kv.1 kv.2) []
          ((stepsItemsOf doc).map stepSplit)) := by
  refine ⟨by decide, ?_, extract_stepsL_eq⟩
  intro t
  by_cases h : t.contains '/' = true
  · rw [if_pos h]
    unfold stepSplit pySplitOnce
    rw [if_pos h, if_pos h]
    simp
  · rw [if_neg h]
    unfold stepSplit
    rw [if_neg h]

/-!
### C5 — number and order of extracted steps
-/

/-- Inserting into the dictionary grows it by at most one entry. -/
theorem dictInsert_length_le (m : List (List Char × List Char)) (k v : List Char) :
    (dictInsert m k v).length ≤ m.length + 1 := by
  induction m with
  | nil => simp [dictInsert]
  | cons p rest ih =>
    cases p with
    | mk k0 v0 =>
      simp only [dictInsert]
      split
      · simp
      · simpa using Nat.succ_le_succ ih

/-- Folding dictionary insertions grows the dictionary by at most the number of
inserted pairs. -/
theorem foldl_dictInsert_length (l : List (List Char × List Char)) :
    ∀ acc : List (List Char × List Char),
      (List.foldl (fun m kv => dictInsert m kv.1 kv.2) acc l).length
        ≤ acc.length + l.length := by
  induction l with
  | nil => intro acc; simp
  | cons kv rest ih =>
    intro acc
    calc (List.foldl (fun m kv => dictInsert m kv.1 kv.2) (dictInsert acc kv.1 kv.2)
            rest).length
        ≤ (dictInsert acc kv.1 kv.2).length + rest.length := ih _
      _ ≤ (acc.length + 1) + rest.length :=
          Nat.add_le_add_right (dictInsert_length_le acc kv.1 kv.2) _
      _ = acc.length + (rest.length + 1) := by omega

/-- Inserting a fresh key appends the pair. -/
theorem dictInsert_fresh (m : List (List Char × List Char)) (k v : List Char)
    (h : ∀ p ∈ m, p.1 ≠ k) : dictInsert m k v = m ++ [(k, v)] := by
  induction m with
  | nil => simp [dictInsert]
  | cons p rest ih =>
    cases p with
    | mk k0 v0 =>
      have hk0 : k0 ≠ k := h (k0, v0) (by simp)
      simp only [dictInsert]
      rw [if_neg (by simpa using hk0)]
      simp only [List.cons_append, List.cons.injEq, true_and]
      exact ih (fun p hp => h p (by simp [hp]))

/-- Folding insertions of pairwise-fresh keys appends the pairs in order. -/
theorem foldl_dictInsert_nodup (l : List (List Char × List Char)) :
    ∀ acc : List (List Char × List Char),
      (acc.map Prod.fst ++ l.map Prod.fst).Nodup →
      List.foldl (fun m kv => dictInsert m kv.1 kv.2) acc l = acc ++ l := by
  induction l with
  | nil => intro acc _; simp
  | cons kv rest ih =>
    intro acc hd
    have hfresh : ∀ p ∈ acc, p.1 ≠ kv.1 := by
      intro p hp
      have hdisj := (List.nodup_append.mp hd).2.2
      intro he
      exact hdisj (a := p.1) (List.mem_map_of_mem Prod.fst hp)
        (by simp [he])
    simp only [List.foldl_cons]
    rw [dictInsert_fresh acc kv.1 kv.2 hfresh]
    have hd2 : ((acc ++ [kv]).map Prod.fst ++ rest.map Prod.fst).Nodup := by
      simpa [List.append_assoc] using hd
    rw [ih (acc ++ [kv]) hd2]
    simp

/-- C5 counterexample: a Steps section with two numbered item lines whose step
names coincide yields ONE entry, not two — the dictionary collapses repeated
names (last occurrence wins), so "exactly N entries" fails. -/
theorem C5_counterexample :
    stepsItemsOf "*Steps*\n1. A / x\n2. A / y" = ["A / x".toList, "A / y".toList]
  ∧ (stepsItemsOf "*Steps*\n1. A / x\n2. A / y").length = 2
  ∧ extract_steps "*Steps*\n1. A / x\n2. A / y" = [("A", "y")]
  ∧ (extract_steps "*Steps*\n1. A / x\n2. A / y").length = 1 := by
  refine ⟨?_, ?_, ?_, ?_⟩ <;> decide

/-- C5 (amended): without a Steps header match the result is empty; with one,
the mapping has AT MOST as many entries as there are recognized numbered or
bulleted item lines, and EXACTLY that many — in source line order — when the
step names of the item lines are pairwise distinct (repeated names collapse,
the last occurrence winning). -/
theorem C5_steps_count :
    (∀ doc : String, searchStepsHeader doc.toList = none → extract_steps doc = [])
  ∧ (∀ doc : String, (extract_steps doc).length ≤ (stepsItemsOf doc).length)
  ∧ (∀ doc : String,
      ((stepsItemsOf doc).map (fun t => (stepSplit t).1)).Nodup →
      extract_steps doc = (stepsItemsOf doc).map
        (fun t => ((stepSplit t).1.asString, (stepSplit t).2.asString))) := by
  refine ⟨?_, ?_, ?_⟩
  · intro doc h
    unfold extract_steps extract_stepsL
    by_cases h0 : doc.toList.isEmpty = true
    · rw [if_pos h0]; rfl
    · rw [if_neg h0, h]; rfl
  · intro doc
    have h1 : (extract_steps doc).length = (extract_stepsL doc.toList).length := by
      unfold extract_steps; simp
    rw [h1, extract_stepsL_eq doc]
    have h2 := foldl_dictInsert_length ((stepsItemsOf doc).map stepSplit) []
    simpa using h2
  · intro doc hnd
    unfold extract_steps
    rw [extract_stepsL_eq doc]
    have hnd2 : (([] : List (List Char × List Char)).map Prod.fst
        ++ ((stepsItemsOf doc).map stepSplit).map Prod.fst).Nodup := by
      simpa [List.map_map, Function.comp] using hnd
    rw [foldl_dictInsert_nodup ((stepsItemsOf doc).map stepSplit) [] hnd2]
    simp [List.map_map, Function.comp]

/-- C5 witness: the amended theorem applied to a two-item section with distinct
step names gives exactly the two entries in source order. -/
theorem C5_steps_count_witness :
    extract_steps "*Steps*\n1. A / x\n2. B" = [("A", "x"), ("B", "pass")] := by
  have h := C5_steps_count.2.2 "*Steps*\n1. A / x\n2. B" (by decide)
  rw [h]
  decide

/-!
### C6 — the recomputed statistics
-/

/-- A test element with status UNKNOWN and one tag. -/
def c6TestU : Xml :=
  xmlElem "test" [("name", "Weird"), ("id", "s1-t2")] none
    [xmlElem "status" [("status", "UNKNOWN")] none [],
     xmlElem "tag" [] (some "smoke") []]

/-- C6 counterexample: the claim covers statuses drawn from
PASS/FAIL/SKIP/UNKNOWN, but for UNKNOWN the aggregate triple is ("0","0","0"):
none of the three counts is 1. -/
theorem C6_counterexample :
    (chunkStats c1Suite c6TestU (some "UNKNOWN")).total = ⟨"0", "0", "0"⟩
  ∧ ¬ exactlyOneCount ((chunkStats c1Suite c6TestU (some "UNKNOWN")).total)
  ∧ (buildChunk none c1Root c1Suite c6TestU 1).map BuiltChunk.stats
      = Except.ok (chunkStats c1Suite c6TestU (some "UNKNOWN")) := by
  refine ⟨by decide, by decide, rfl⟩

/-- C6 (amended): for a test whose status attribute is PASS, FAIL or SKIP the
aggregate triple has exactly one count equal to "1" and the other two "0"; the
per-tag triples (one per tag child, in order) and the suite-level triple are
always identical to the aggregate triple; for UNKNOWN all three counts are "0". -/
theorem C6_statistics :
    (∀ (suite test : Xml) (s : String), s = "PASS" ∨ s = "FAIL" ∨ s = "SKIP" →
      exactlyOneCount (chunkStats suite test (some s)).total)
  ∧ (∀ (suite test : Xml) (stVal : Option String),
      (chunkStats suite test stVal).tagStats
          = (findChildren test "tag").map
              (fun tg => (Xml.textOf tg, (chunkStats suite test stVal).total))
        ∧ (chunkStats suite test stVal).suiteTriple = (chunkStats suite test stVal).total)
  ∧ (∀ (suite test : Xml), (chunkStats suite test (some "UNKNOWN")).total
      = ⟨"0", "0", "0"⟩) := by
  refine ⟨?_, ?_, ?_⟩
  · intro suite test s hs
    rcases hs with h | h | h <;> subst h <;>
      simp [chunkStats, statusCounts, exactlyOneCount]
  · intro suite test stVal
    exact ⟨rfl, rfl⟩
  · intro suite test
    simp [chunkStats, statusCounts]

/-- C6 witness: the amended theorem at a concrete PASS test. -/
theorem C6_statistics_witness :
    exactlyOneCount (chunkStats c1Suite c1Test (some "PASS")).total :=
  C6_statistics.1 c1Suite c1Test "PASS" (Or.inl rfl)

/-!
### Lemmas about `findSub`
-/

/-- Whenever the scan returns a non-negative index, the pattern starts there. -/
theorem findSubAux_spec (sub : List Char) :
    ∀ (s : List Char) (i : Nat), findSubAux sub s i = -1 ∨
      ∃ k : Nat, findSubAux sub s i = ((i + k : Nat) : Int)
        ∧ startsWithL sub (s.drop k) = true := by
  intro s
  induction s with
  | nil =>
    intro i
    by_cases h : startsWithL sub [] = true
    · right; exact ⟨0, by simp [findSubAux, h], by simpa using h⟩
    · left; simp [findSubAux, h]
  | cons c cs ih =>
    intro i
    by_cases h : startsWithL sub (c :: cs) = true
    · right; exact ⟨0, by simp [findSubAux, h], by simpa using h⟩
    · rcases ih (i + 1) with h1 | ⟨k, hk, hs⟩
      · left; simp [findSubAux, h, h1]
      · right
        refine ⟨k + 1, ?_, by simpa using hs⟩
        simp only [findSubAux, h, if_false, Bool.false_eq_true, hk]
        congr 1
        omega

/-- `str.find`: a result other than -1 is a non-negative index where the
pattern occurs. -/
theorem findSub_startsWith (sub s : List Char) (h : findSub sub s ≠ -1) :
    startsWithL sub (s.drop (findSub sub s).toNat) = true := by
  rcases findSubAux_spec sub s 0 with h1 | ⟨k, hk, hs⟩
  · exact absurd h1 h
  · unfold findSub
    rw [hk]
    simpa using hs

/-- Unpacking one matched character of `startsWithL`. -/
theorem startsWithL_cons {p : Char} {ps s : List Char}
    (h : startsWithL (p :: ps) s = true) :
    ∃ t, s = p :: t ∧ startsWithL ps t = true := by
  cases s with
  | nil => simp [startsWithL] at h
  | cons c cs =>
    simp only [startsWithL, Bool.and_eq_true, beq_iff_eq] at h
    exact ⟨cs, by rw [h.1], h.2⟩

/-- Converting a character list to a string and back is the identity. -/
theorem asString_toList (l : List Char) : (l.asString).toList = l := rfl

/-- Dropping past a found `/`-led marker leaves a tail beginning with the
marker's segment name. -/
theorem drop_marker_startsWith (seg s : List Char)
    (h : findSub ('/' :: seg) s ≠ -1) :
    startsWithL seg (s.drop ((findSub ('/' :: seg) s).toNat + 1)) = true := by
  obtain ⟨t, ht, hts⟩ := startsWithL_cons (findSub_startsWith ('/' :: seg) s h)
  have hdd : s.drop ((findSub ('/' :: seg) s).toNat + 1)
      = (s.drop ((findSub ('/' :: seg) s).toNat)).drop 1 := by
    rw [List.drop_drop, Nat.add_comm]
  rw [hdd, ht]
  simpa using hts

/-- C2 (amended): the normalization lowercases the path and probes the markers
in the FIXED order `/tests/` then `/scripts/`.  Whenever `/tests/` occurs
anywhere in the lowercase path, the result is everything from (and including)
the `tests/` segment at the first occurrence — even if `/scripts/` occurs
earlier in the string; else, when `/scripts/` occurs, the result is everything
from (and including) the `scripts/` segment at its first occurrence; when
neither occurs the full lowercase path is kept.  The two example paths of the
claim normalize to the same tail and so yield the same checksum whenever test
name and documentation are equal. -/
theorem C2_normalization :
    (∀ s : String, findSub ("/tests/".toList) (lowerL s.toList) ≠ -1 →
       (normalizeSource s).toList
           = (lowerL s.toList).drop
               ((findSub ("/tests/".toList) (lowerL s.toList)).toNat + 1)
         ∧ (lowerL s.toList).take
               ((findSub ("/tests/".toList) (lowerL s.toList)).toNat + 1)
             ++ (normalizeSource s).toList = lowerL s.toList
         ∧ startsWithL ("tests/".toList) (normalizeSource s).toList = true)
  ∧ (∀ s : String, findSub ("/tests/".toList) (lowerL s.toList) = -1 →
       findSub ("/scripts/".toList) (lowerL s.toList) ≠ -1 →
       (normalizeSource s).toList
           = (lowerL s.toList).drop
               ((findSub ("/scripts/".toList) (lowerL s.toList)).toNat + 1)
         ∧ (lowerL s.toList).take
               ((findSub ("/scripts/".toList) (lowerL s.toList)).toNat + 1)
             ++ (normalizeSource s).toList = lowerL s.toList
         ∧ startsWithL ("scripts/".toList) (normalizeSource s).toList = true)
  ∧ (∀ s : String, findSub ("/tests/".toList) (lowerL s.toList) = -1 →
       findSub ("/scripts/".toList) (lowerL s.toList) = -1 →
       normalizeSource s = (lowerL s.toList).asString)
  ∧ normalizeSource "/repo/checkout/tests/suite/case.robot"
      = normalizeSource "/other/root/TESTS/suite/case.robot"
  ∧ (∀ name doc : String,
       chunkChecksum name doc "/repo/checkout/tests/suite/case.robot"
         = chunkChecksum name doc "/other/root/TESTS/suite/case.robot") := by
  have hnorm : normalizeSource "/repo/checkout/tests/suite/case.robot"
      = normalizeSource "/other/root/TESTS/suite/case.robot" := by decide
  refine ⟨?_, ?_, ?_, hnorm, ?_⟩
  · intro s h
    have hred : (normalizeSource s).toList
        = (lowerL s.toList).drop
            ((findSub ("/tests/".toList) (lowerL s.toList)).toNat + 1) := by
      simp only [normalizeSource, normSourceAndIdx]
      rw [if_pos (bne_iff_ne.mpr h)]
      rfl
    refine ⟨hred, ?_, ?_⟩
    · rw [hred]
      exact List.take_append_drop _ _
    · rw [hred]
      have hsplit : "/tests/".toList = '/' :: "tests/".toList := by decide
      rw [hsplit] at h ⊢
      exact drop_marker_startsWith ("tests/".toList) (lowerL s.toList) h
  · intro s h1 h2
    have hred : (normalizeSource s).toList
        = (lowerL s.toList).drop
            ((findSub ("/scripts/".toList) (lowerL s.toList)).toNat + 1) := by
      simp only [normalizeSource, normSourceAndIdx]
      rw [if_neg (by simp; exact h1), if_pos (bne_iff_ne.mpr h2)]
      rfl
    refine ⟨hred, ?_, ?_⟩
    · rw [hred]
      exact List.take_append_drop _ _
    · rw [hred]
      have hsplit : "/scripts/".toList = '/' :: "scripts/".toList := by decide
      rw [hsplit] at h2 ⊢
      exact drop_marker_startsWith ("scripts/".toList) (lowerL s.toList) h2
  · intro s h1 h2
    simp only [normalizeSource, normSourceAndIdx]
    rw [if_neg (by simp; exact h1), if_neg (by simp; exact h2)]
  · intro name doc
    unfold chunkChecksum
    rw [hnorm]

/-- C2 witness: the amended theorem's `/tests/` branch applied where
`/scripts/` occurs first in the string, and its `/scripts/`-only branch
applied to a path without any `/tests/` segment. -/
theorem C2_normalization_witness :
    startsWithL ("tests/".toList)
        (normalizeSource "/x/scripts/a/tests/b.robot").toList = true
  ∧ startsWithL ("scripts/".toList)
        (normalizeSource "/y/scripts/only.robot").toList = true :=
  ⟨(C2_normalization.1 "/x/scripts/a/tests/b.robot" (by decide)).2.2,
   (C2_normalization.2.1 "/y/scripts/only.robot" (by decide) (by decide)).2.2⟩

/-!
### C7 — failure records of the Chunk Reader
-/

/-- Two strings with distinct known head characters stay distinct under any
appended tails. -/
theorem append_ne_append_of_head (p q : String) (c d : Char) (tp tq : List Char)
    (hp : p.data = c :: tp) (hq : q.data = d :: tq) (hcd : c ≠ d) (m n : String) :
    p ++ m ≠ q ++ n := by
  intro e
  have e1 : (p ++ m).data = (q ++ n).data := congrArg String.data e
  rw [String.data_append, String.data_append, hp, hq] at e1
  simp only [List.cons_append, List.cons.injEq] at e1
  exact hcd e1.1

/-- A string with a known head stays distinct from a constant with another
head under any appended tail. -/
theorem append_ne_of_head (p q : String) (c d : Char) (tp tq : List Char)
    (hp : p.data = c :: tp) (hq : q.data = d :: tq) (hcd : c ≠ d) (m : String) :
    p ++ m ≠ q := by
  intro e
  have e1 : (p ++ m).data = q.data := congrArg String.data e
  rw [String.data_append, hp, hq] at e1
  simp only [List.cons_append, List.cons.injEq] at e1
  exact hcd e1.1

/-- C7: every `success=false` record of `get_data_from_chunk` is exactly an
`errorRecord`: it carries the document path, the success flag and an error
message, and omits every test-derived field; the four failure modes (parse
fault, other fault, missing suite, missing test) each produce their own
pairwise-distinct human-readable message, and no failure propagates (the
reader is total). -/
theorem C7_failure_records :
    (∀ (cfg : Option (String → Option String)) (path : String) (pr : ParseResult)
        (logEx : Bool),
      (get_data_from_chunk cfg path pr logEx).success = false →
      ∃ msg, get_data_from_chunk cfg path pr logEx = errorRecord path msg)
  ∧ (∀ p m, (errorRecord p m).xml_file = p ∧ (errorRecord p m).success = false
      ∧ (errorRecord p m).error = some m ∧ (errorRecord p m).index = none
      ∧ (errorRecord p m).test_name = none ∧ (errorRecord p m).test_id = none
      ∧ (errorRecord p m).status = none ∧ (errorRecord p m).documentation = none
      ∧ (errorRecord p m).steps = none ∧ (errorRecord p m).requirements = none
      ∧ (errorRecord p m).source = none ∧ (errorRecord p m).checksum = none
      ∧ (errorRecord p m).interface = none ∧ (errorRecord p m).log_file = none)
  ∧ (∀ cfg path m logEx, get_data_from_chunk cfg path (ParseResult.parseFailure m) logEx
      = errorRecord path ("XML parsing error: " ++ m))
  ∧ (∀ cfg path m logEx, get_data_from_chunk cfg path (ParseResult.otherFailure m) logEx
      = errorRecord path ("Error reading chunk: " ++ m))
  ∧ (∀ cfg path root logEx, findDesc root "suite" = none →
      get_data_from_chunk cfg path (ParseResult.ok root) logEx
        = errorRecord path "No suite element found in XML")
  ∧ (∀ cfg path root suite logEx, findDesc root "suite" = some suite →
      findChild suite "test" = none →
      get_data_from_chunk cfg path (ParseResult.ok root) logEx
        = errorRecord path "No test element found in XML")
  ∧ (∀ m n : String, "XML parsing error: " ++ m ≠ "Error reading chunk: " ++ n)
  ∧ (∀ m : String, "XML parsing error: " ++ m ≠ "No suite element found in XML"
      ∧ "XML parsing error: " ++ m ≠ "No test element found in XML"
      ∧ "Error reading chunk: " ++ m ≠ "No suite element found in XML"
      ∧ "Error reading chunk: " ++ m ≠ "No test element found in XML")
  ∧ "No suite element found in XML" ≠ ("No test element found in XML" : String) := by
  refine ⟨?_, ?_, ?_, ?_, ?_, ?_, ?_, ?_, by decide⟩
  · intro cfg path pr logEx hsucc
    cases pr with
    | parseFailure m => exact ⟨_, rfl⟩
    | otherFailure m => exact ⟨_, rfl⟩
    | ok root =>
      cases h1 : findDesc root "suite" with
      | none =>
        exact ⟨"No suite element found in XML", by simp [get_data_from_chunk, h1]⟩
      | some suite =>
        cases h2 : findChild suite "test" with
        | none =>
          exact ⟨"No test element found in XML", by simp [get_data_from_chunk, h1, h2]⟩
        | some test =>
          exfalso
          simp [get_data_from_chunk, h1, h2, errorRecord] at hsucc
  · intro p m
    refine ⟨rfl, rfl, rfl, rfl, rfl, rfl, rfl, rfl, rfl, rfl, rfl, rfl, rfl, rfl⟩
  · intro cfg path m logEx; rfl
  · intro cfg path m logEx; rfl
  · intro cfg path root logEx h1; simp [get_data_from_chunk, h1]
  · intro cfg path root suite logEx h1 h2; simp [get_data_from_chunk, h1, h2]
  · intro m n
    exact append_ne_append_of_head _ _ 'X' 'E' _ _ rfl rfl (by decide) m n
  · intro m
    exact ⟨append_ne_of_head _ _ 'X' 'N' _ _ rfl rfl (by decide) m,
      append_ne_of_head _ _ 'X' 'N' _ _ rfl rfl (by decide) m,
      append_ne_of_head _ _ 'E' 'N' _ _ rfl rfl (by decide) m,
      append_ne_of_head _ _ 'E' 'N' _ _ rfl rfl (by decide) m⟩

/-- C7 witness: a parse failure yields an error record at the document path. -/
theorem C7_failure_records_witness :
    ∃ msg, get_data_from_chunk none "chunks/bad.xml" (ParseResult.parseFailure "boom") false
      = errorRecord "chunks/bad.xml" msg :=
  C7_failure_records.1 none "chunks/bad.xml" (ParseResult.parseFailure "boom") false
    (by decide)

/-!
### C8 — failure isolation in the Document Splitter
-/

/-- A second test for multi-test documents. -/
def c8Test2 : Xml :=
  xmlElem "test" [("name", "Second Test"), ("id", "s1-t2")] none
    [xmlElem "status" [("status", "FAIL")] none []]

/-- A suite with two tests. -/
def c8Suite : Xml :=
  xmlElem "suite" [("name", "Login"), ("id", "s1"), ("source", "/repo/tests/login.robot")]
    none [c1Test, c8Test2]

/-- An aggregated report with two (suite, test) pairs. -/
def c8Root : Xml := xmlElem "robot" [("generator", "Robot")] none [c8Suite]

/-- A write oracle failing exactly for the first test. -/
def c8FailWriter (i : Nat) : WriteOutcome :=
  if i == 1 then WriteOutcome.failed "disk full" else WriteOutcome.ok

/-- The produced chunk list never depends on the render outcomes. -/
theorem splitLoop_render_free (pat : Option (String → Option String)) (root : Xml)
    (w : Nat → WriteOutcome) (r r' : Nat → RenderOutcome) :
    ∀ (pairs : List (Xml × Xml)) (idx : Nat) (acc : List BuiltChunk)
      (log log' : List String),
      (splitLoop pat root w r idx pairs acc log).1
        = (splitLoop pat root w r' idx pairs acc log').1 := by
  intro pairs
  induction pairs with
  | nil => intro idx acc log log'; rfl
  | cons pr rest ih =>
    intro idx acc log log'
    cases pr with
    | mk suite test =>
      simp only [splitLoop]
      cases buildChunk pat root suite test idx with
      | error e => rfl
      | ok chunk =>
        cases w idx with
        | failed m => rfl
        | ok => exact ih (idx + 1) (chunk :: acc) _ _

/-- A test with a name attribute and a status child is always buildable. -/
theorem buildChunk_ok (pat : Option (String → Option String)) (root suite test : Xml)
    (idx : Nat) (hn : (Xml.getAttr test "name").isSome = true)
    (hs : (findChild test "status").isSome = true) :
    ∃ c, buildChunk pat root suite test idx = Except.ok c := by
  obtain ⟨nm, hnm⟩ := Option.isSome_iff_exists.mp hn
  obtain ⟨st, hst⟩ := Option.isSome_iff_exists.mp hs
  cases hb : buildChunk pat root suite test idx with
  | ok c => exact ⟨c, rfl⟩
  | error e =>
    exfalso
    simp only [buildChunk, hnm, hst] at hb
    exact Except.noConfusion hb

/-- When every write succeeds and every test is buildable, the loop produces
one chunk and one render-log line per (suite, test) pair. -/
theorem splitLoop_all_ok (pat : Option (String → Option String)) (root : Xml)
    (w : Nat → WriteOutcome) (r : Nat → RenderOutcome)
    (hw : ∀ i, w i = WriteOutcome.ok) :
    ∀ (pairs : List (Xml × Xml)) (idx : Nat) (acc : List BuiltChunk)
      (log : List String),
      (∀ pr ∈ pairs, (Xml.getAttr pr.2 "name").isSome = true
        ∧ (findChild pr.2 "status").isSome = true) →
      ∃ l, (splitLoop pat root w r idx pairs acc log).1 = Except.ok l
        ∧ l.length = acc.length + pairs.length
        ∧ (splitLoop pat root w r idx pairs acc log).2.length
            = log.length + pairs.length := by
  intro pairs
  induction pairs with
  | nil =>
    intro idx acc log _
    exact ⟨acc.reverse, rfl, by simp [splitLoop], by simp [splitLoop]⟩
  | cons pr rest ih =>
    intro idx acc log hcond
    cases pr with
    | mk suite test =>
      obtain ⟨c, hc⟩ := buildChunk_ok pat root suite test idx
        (hcond (suite, test) (by simp)).1 (hcond (suite, test) (by simp)).2
      simp only [splitLoop, hc, hw idx]
      obtain ⟨l, h1, h2, h3⟩ := ih (idx + 1) (c :: acc) (renderLog (r idx) :: log)
        (fun q hq => hcond q (by simp [hq]))
      refine ⟨l, h1, by simpa [Nat.add_assoc, Nat.add_comm 1 rest.length] using h2,
        by simpa [Nat.add_assoc, Nat.add_comm 1 rest.length] using h3⟩

/-- C8 counterexample: a failure while WRITING the first test's standalone
document aborts the whole loop — the second (suite, test) pair's document is
never produced, although the report contains two pairs. -/
theorem C8_counterexample :
    (testCases c8Root).length = 2
  ∧ (split_to_chunks none c8Root c8FailWriter (fun _ => RenderOutcome.exit 0)).1
      = Except.error "disk full" := by
  exact ⟨by decide, rfl⟩

/-- C8 (amended): failures of the renderer invocation are fully isolated — the
produced standalone documents do not depend on the render outcomes in any way,
and when building and writing succeed for every pair, every pair's document is
produced and the renderer is invoked once per pair; but a failure while
building or writing ONE pair's document propagates and aborts the processing
of all subsequent pairs (see the counterexample). -/
theorem C8_isolation :
    (∀ (pat : Option (String → Option String)) (root : Xml) (w : Nat → WriteOutcome)
        (r r' : Nat → RenderOutcome),
      (split_to_chunks pat root w r).1 = (split_to_chunks pat root w r').1)
  ∧ (∀ (pat : Option (String → Option String)) (root : Xml) (w : Nat → WriteOutcome)
        (r : Nat → RenderOutcome),
      (∀ i, w i = WriteOutcome.ok) →
      (∀ pr ∈ testCases root, (Xml.getAttr pr.2 "name").isSome = true
        ∧ (findChild pr.2 "status").isSome = true) →
      ∃ l, (split_to_chunks pat root w r).1 = Except.ok l
        ∧ l.length = (testCases root).length
        ∧ (split_to_chunks pat root w r).2.length = (testCases root).length) := by
  constructor
  · intro pat root w r r'
    exact splitLoop_render_free pat root w r r' (testCases root) 1 [] [] []
  · intro pat root w r hw hcond
    obtain ⟨l, h1, h2, h3⟩ := splitLoop_all_ok pat root w r hw (testCases root) 1 [] [] hcond
    exact ⟨l, h1, by simpa using h2, by simpa using h3⟩

/-- C8 witness: on the two-test report, with all writes succeeding and the
renderer binary missing for every pair, both documents are still produced and
the renderer is attempted twice. -/
theorem C8_isolation_witness :
    ∃ l, (split_to_chunks none c8Root (fun _ => WriteOutcome.ok)
        (fun _ => RenderOutcome.binMissing)).1 = Except.ok l
      ∧ l.length = 2
      ∧ (split_to_chunks none c8Root (fun _ => WriteOutcome.ok)
          (fun _ => RenderOutcome.binMissing)).2.length = 2 := by
  obtain ⟨l, h1, h2, h3⟩ := C8_isolation.2 none c8Root (fun _ => WriteOutcome.ok)
    (fun _ => RenderOutcome.binMissing) (fun _ => rfl) (by decide)
  exact ⟨l, h1, h2.trans (by decide), h3.trans (by decide)⟩

/-!
### C9 — classification value resolution order
-/

/-- The SETUP messages contributed by the found ancestor suites, in walk order. -/
def parentSetupMsgs (r : Xml) (pids : List (List Char)) : List Xml :=
  (pids.map (fun pid =>
    match findSuiteById r pid.asString with
    | some ps => setupMsgs ps
    | none => [])).flatten

/-- The full candidate message sequence of the code's three search phases. -/
def searchMsgs (test suite r : Xml) : List Xml :=
  setupMsgs suite
    ++ parentSetupMsgs r (parentIdsOf (Xml.getAttrD suite "id" "").toList)
    ++ msgsUnder test

/-- The first hit over a concatenation is the first hit of either part. -/
theorem firstHit_append (p : String → Option String) (a b : List Xml) :
    firstHit p (a ++ b) =
      match firstHit p a with
      | some v => some v
      | none => firstHit p b := by
  induction a with
  | nil => simp [firstHit]
  | cons m rest ih =>
    simp only [List.cons_append, firstHit]
    cases msgText m with
    | none => simpa using ih
    | some t =>
      cases hp : p t with
      | none => simpa [hp] using ih
      | some cap => simp [hp]

/-- The ancestor walk is the first hit over the ancestors' message sequence. -/
theorem firstParentHit_eq (p : String → Option String) (r : Xml) :
    ∀ pids, firstParentHit p r pids = firstHit p (parentSetupMsgs r pids) := by
  intro pids
  induction pids with
  | nil => simp [firstParentHit, parentSetupMsgs, firstHit]
  | cons pid rest ih =>
    simp only [firstParentHit, parentSetupMsgs, List.map_cons, List.flatten_cons]
    cases hf : findSuiteById r pid.asString with
    | none =>
      simp only [hf, List.nil_append]
      simpa [parentSetupMsgs] using ih
    | some ps =>
      simp only [hf]
      rw [firstHit_append]
      cases hfh : firstHit p (setupMsgs ps) with
      | some v => simp [hfh]
      | none => simpa [hfh, parentSetupMsgs] using ih

/-- The search function modelling the configured pattern in the examples. -/
def c9Pat (s : String) : Option String :=
  if s == "open_session sess" then some "sess" else none

/-- A SETUP keyword whose nested message matches `c9Pat`. -/
def c9GpSetup : Xml :=
  xmlElem "kw" [("name", "Setup"), ("type", "SETUP")] none
    [xmlElem "msg" [] (some "open_session sess") []]

/-- A test with no messages at all. -/
def c9Test : Xml :=
  xmlElem "test" [("name", "T"), ("id", "s1-s1-s1-t1")] none
    [xmlElem "status" [("status", "PASS")] none []]

/-- The test's own suite: no SETUP keyword, no messages. -/
def c9Suite : Xml :=
  xmlElem "suite" [("name", "Leaf"), ("id", "s1-s1-s1")] none [c9Test]

/-- The parent suite: still no SETUP keyword. -/
def c9Mid : Xml := xmlElem "suite" [("name", "Mid"), ("id", "s1-s1")] none [c9Suite]

/-- The grandparent suite, carrying the session-establishing SETUP. -/
def c9Gp : Xml := xmlElem "suite" [("name", "Gp"), ("id", "s1")] none [c9GpSetup, c9Mid]

/-- The aggregated report around the three-level suite chain. -/
def c9Root : Xml := xmlElem "robot" [] none [c9Gp]

/-- Analysis definition, modelled from the claim's words: step 1 (and the
ancestor walk) consider only setup-type action nodes DIRECTLY under the
respective suite, searching all messages nested in them. -/
def directSetupMsgs (x : Xml) : List Xml :=
  ((setupKws x).map
    (fun k => (Xml.descendants k).filter (fun m => Xml.tagOf m == "msg"))).flatten

/-- Analysis definition, modelled from the claim's words: resolution in the
claimed order — direct setup actions of the suite, then of each found ancestor
(nearest first), then the test's log messages. -/
def resolveTagClaimed (p : String → Option String) (test suite r : Xml) : Option String :=
  match firstHit p (directSetupMsgs suite) with
  | some v => some v
  | none =>
    match firstHit p ((parentIdsOf (Xml.getAttrD suite "id" "").toList).map
        (fun pid =>
          match findSuiteById r pid.asString with
          | some ps => directSetupMsgs ps
          | none => []) |>.flatten) with
    | some v => some v
    | none => firstHit p (msgsUnder test)

/-- A test (under scrutiny) with no messages, next to a sibling test whose
SETUP keyword carries the matching message. -/
def c9bTestA : Xml := xmlElem "test" [("name", "A"), ("id", "s1-t1")] none []

/-- The sibling test carrying a matching SETUP message. -/
def c9bTestB : Xml :=
  xmlElem "test" [("name", "B"), ("id", "s1-t2")] none
    [xmlElem "kw" [("name", "Setup"), ("type", "SETUP")] none
      [xmlElem "msg" [] (some "open_session sess") []]]

/-- A suite whose only SETUP keyword lives inside a test, not directly under
the suite. -/
def c9bSuite : Xml := xmlElem "suite" [("name", "S"), ("id", "s1")] none [c9bTestA, c9bTestB]

/-- The surrounding report. -/
def c9bRoot : Xml := xmlElem "robot" [] none [c9bSuite]

/-- C9 counterexample: the code's first phase searches `.//kw[@type="SETUP"]`,
i.e. setup keywords at ANY depth under the suite — here the only match sits in
a SIBLING test's SETUP keyword, which is not "directly under the current
suite"; the claimed order finds nothing, the code returns the capture. -/
theorem C9_counterexample :
    extract_filename_pfx (some c9Pat) c9bTestA c9bSuite (some c9bRoot) = some "SESS"
  ∧ resolveTagClaimed c9Pat c9bTestA c9bSuite c9bRoot = none
  ∧ setupKws c9bSuite = [] := by
  exact ⟨rfl, rfl, rfl⟩

/-- C9 (amended): with no configured pattern the resolver returns absent; with
a pattern it returns the uppercased first capture over the concatenation of
(1) messages of setup-type actions at ANY depth under the current suite, (2)
the same for each found ancestor suite, nearest parent outward via id
truncation, (3) all messages under the test node; and a match present only in
the grandparent suite's setup is found when neither the test nor its immediate
suite contains one. -/
theorem C9_resolution :
    (∀ (test suite : Xml) (root : Option Xml),
      extract_filename_pfx none test suite root = none)
  ∧ (∀ (p : String → Option String) (test suite r : Xml),
      extract_filename_pfx (some p) test suite (some r)
        = firstHit p (searchMsgs test suite r))
  ∧ extract_filename_pfx (some c9Pat) c9Test c9Suite (some c9Root) = some "SESS"
  ∧ firstHit c9Pat (setupMsgs c9Suite) = none
  ∧ firstHit c9Pat (msgsUnder c9Test) = none := by
  refine ⟨fun _ _ _ => rfl, ?_, rfl, rfl, rfl⟩
  intro p test suite r
  simp only [extract_filename_pfx, searchMsgs, List.append_assoc]
  rw [firstHit_append, firstHit_append, ← firstParentHit_eq]

/-!
### C10 — the header regexes are unanchored bare-substring searches
-/

/-- The case-insensitive literal matcher succeeds exactly on lowercase
prefixes. -/
theorem matchCI_isSome_iff (p : List Char) :
    ∀ s : List Char, (matchCI p s).isSome = true ↔ p <+: lowerL s := by
  induction p with
  | nil => intro s; simp [matchCI, List.nil_prefix]
  | cons pc pr ih =>
    intro s
    cases s with
    | nil => simp [matchCI, lowerL]
    | cons c cs =>
      have hl : lowerL (c :: cs) = c.toLower :: lowerL cs := rfl
      rw [hl, List.cons_prefix_cons]
      simp only [matchCI]
      by_cases h : (c.toLower == pc) = true
      · rw [if_pos h, ih cs]
        constructor
        · intro hp; exact ⟨(beq_iff_eq.mp h).symm, hp⟩
        · intro hp; exact hp.2
      · rw [if_neg h]
        simp only [Option.isSome_none, Bool.false_eq_true, false_iff]
        intro hc
        exact h (by simp [hc.1])

/-- A header-regex match at a position succeeds exactly when the literal label
matches after the optional leading emphasis marker. -/
theorem headerMatch_isSome (pat : List Char) (slash : Bool) (s : List Char) :
    (headerMatch pat slash s).isSome
      = (matchCI pat (if startsWithL ['*'] s then s.drop 1 else s)).isSome := by
  simp only [headerMatch]
  cases hm : matchCI pat (if startsWithL ['*'] s then s.drop 1 else s) <;> simp [hm]

/-- The header search succeeds exactly when the bare label occurs anywhere in
the lowercased text — the decorations of the header pattern are all optional
and the pattern is unanchored. -/
theorem headerSearch_isSome_iff (pc : Char) (pr : List Char) (slash : Bool)
    (hstar : pc ≠ '*') :
    ∀ cs : List Char, (headerSearch (pc :: pr) slash cs).isSome = true
      ↔ (pc :: pr) <:+: lowerL cs := by
  intro cs
  induction cs with
  | nil => simp [headerSearch, lowerL]
  | cons c cs ih =>
    have hl : lowerL (c :: cs) = c.toLower :: lowerL cs := rfl
    rw [hl, List.infix_cons_iff, hl.symm]
    have hsearch : (headerSearch (pc :: pr) slash (c :: cs)).isSome = true
        ↔ ((headerMatch (pc :: pr) slash (c :: cs)).isSome = true
            ∨ (headerSearch (pc :: pr) slash cs).isSome = true) := by
      simp only [headerSearch]
      cases hm : headerMatch (pc :: pr) slash (c :: cs) <;> simp [hm]
    rw [hsearch, ih]
    have hmatch := headerMatch_isSome (pc :: pr) slash (c :: cs)
    by_cases hc : c = '*'
    · subst hc
      have hsw : startsWithL ['*'] ('*' :: cs) = true := by simp [startsWithL]
      rw [if_pos hsw] at hmatch
      simp only [List.drop_one, List.tail_cons] at hmatch
      rw [hmatch, matchCI_isSome_iff]
      constructor
      · intro h
        rcases h with h | h
        · exact Or.inr h.isInfix
        · exact Or.inr h
      · intro h
        rcases h with h | h
        · exfalso
          rw [hl, List.cons_prefix_cons] at h
          exact hstar (by simpa using h.1)
        · exact Or.inr h
    · have hc2 : ('*' == c) = false := beq_eq_false_iff_ne.mpr (Ne.symm hc)
      have hsw : startsWithL ['*'] (c :: cs) = false := by
        simp [startsWithL, hc2]
      rw [if_neg (by simp [hsw])] at hmatch
      rw [hmatch, matchCI_isSome_iff]

/-- C10: extraction begins wherever the bare label first occurs: the Steps
(resp. Requirements) header search succeeds precisely when the lowercase text
contains the bare substring "steps" (resp. "requirements") anywhere — inside a
longer word or mid-sentence included — and list extraction then proceeds from
that point, as the concrete examples show. -/
theorem C10_header_scan :
    (∀ cs : List Char, (searchStepsHeader cs).isSome = true
      ↔ "steps".toList <:+: lowerL cs)
  ∧ (∀ cs : List Char, (searchReqsHeader cs).isSome = true
      ↔ "requirements".toList <:+: lowerL cs)
  ∧ extract_steps "Footsteps:\n1. A" = [("A", "pass")]
  ∧ extract_steps "follow these steps below\n1. A / x" = [("A", "x")]
  ∧ extract_requirements "Misrequirements ahead\n- R1" = ["ahead", "R1"]
  ∧ extract_steps "No section here\n1. A" = [] := by
  refine ⟨?_, ?_, by decide, by decide, by decide, by decide⟩
  · intro cs
    exact headerSearch_isSome_iff 's' ("teps".toList) true (by decide) cs
  · intro cs
    exact headerSearch_isSome_iff 'r' ("equirements".toList) false (by decide) cs
